import Mathlib

/-!
Shallow embedding of the todo-api task service (Go, gin + sqlite):
the persistence layer (`utils` package) and the HTTP handlers (`main.go`).

Storage is modelled as a list of rows in insertion order.  SQLite's
`AUTOINCREMENT` id assignment is modelled as one more than the maximal id
present (ids are never negative in any reachable state).  Timestamps are
opaque integers supplied by the caller (the `time.Now()` values).  Queries
and statements that can fail at the I/O level are modelled with an explicit
failure oracle exactly where a claim depends on failure behaviour
(the insert loop of the array-create handler and the `tx.Exec` calls of the
reorder transaction); elsewhere the success path is modelled.

Note the schema (`InitDB`) declares only a plain index `idx_position` on
`position`, not a UNIQUE constraint, so inserts and updates never fail on a
duplicate position; the embedding reflects that.
-/

namespace TodoApi

/-- A row of the `tasks` table / `models.Task`. -/
structure Task where
  id : Int
  title : String
  description : String
  position : Int
  createdAt : Int
  updatedAt : Int
deriving DecidableEq

/-- The committed database state: the rows of the `tasks` table in insertion order. -/
abbrev DBState := List Task

/-- A create-request item: the fields of the JSON body used by `POST /tasks`. -/
structure TaskInput where
  title : String
  description : String
  position : Int
deriving DecidableEq

/-- Maximal id present in the table (0 when empty). -/
def maxId (s : DBState) : Int := s.foldl (fun m t => max m t.id) 0

/-- Id assigned by SQLite `AUTOINCREMENT` to the next inserted row. -/
def nextId (s : DBState) : Int := 1 + maxId s

/-- Maximal `position` value present in the table (0 when empty). -/
def maxPosition (s : DBState) : Int := s.foldl (fun m t => max m t.position) 0

/-- `utils.AddTask`: `INSERT INTO tasks (title, description, position, created_at,
updated_at) VALUES (?, ?, ?, ?, ?)`, returning the created row. -/
def AddTask (title description : String) (position now : Int) (s : DBState) :
    Task × DBState :=
  let t : Task := ⟨nextId s, title, description, position, now, now⟩
  (t, s ++ [t])

/-- `utils.CheckPositionExists`: `SELECT COUNT(*) FROM tasks WHERE position = ?`,
then `count > 0`. -/
def CheckPositionExists (position : Int) (s : DBState) : Bool :=
  s.any (fun t => t.position == position)

/-- `utils.CheckTaskExists`: `SELECT COUNT(*) FROM tasks WHERE id = ?`, then `count > 0`. -/
def CheckTaskExists (id : Int) (s : DBState) : Bool :=
  s.any (fun t => t.id == id)

/-- Effect of `UPDATE tasks SET title = ?, description = ?, position = ?,
updated_at = ? WHERE id = ?` on one row. -/
def updRow (id : Int) (title description : String) (position now : Int) (t : Task) :
    Task :=
  if t.id = id then
    { t with title := title, description := description, position := position,
             updatedAt := now }
  else t

/-- `utils.UpdateTask`: the row-wise `UPDATE ... WHERE id = ?` over the table. -/
def UpdateTask (id : Int) (title description : String) (position now : Int)
    (s : DBState) : DBState :=
  s.map (updRow id title description position now)

/-- `utils.DeleteTask`: `DELETE FROM tasks WHERE id = ?`. -/
def DeleteTask (id : Int) (s : DBState) : DBState :=
  s.filter (fun t => !(t.id == id))

/-- `utils.DeleteAllTasks`: `DELETE FROM tasks`. -/
def DeleteAllTasks (_s : DBState) : DBState := []

/-- The comparison used by `ORDER BY position ASC`. -/
def posLe (a b : Task) : Prop := a.position ≤ b.position

instance : DecidableRel posLe := fun a b => inferInstanceAs (Decidable (a.position ≤ b.position))

instance : IsTotal Task posLe := ⟨fun a b => le_total a.position b.position⟩

instance : IsTrans Task posLe := ⟨fun _ _ _ h h' => le_trans h h'⟩

/-- The table read back `ORDER BY position ASC` (a stable sort of the rows). -/
def sortByPos (s : DBState) : List Task := List.insertionSort posLe s

/-- `utils.GetPaginatedTasks`: `SELECT COUNT(*) FROM tasks` for the total, then
`SELECT ... ORDER BY position ASC LIMIT ? OFFSET ?` for the page. -/
def GetPaginatedTasks (offset limit : Nat) (s : DBState) : List Task × Nat :=
  (((sortByPos s).drop offset).take limit, s.length)

/-- One step of scanning for the row with the greatest id. -/
def glStep (acc : Option Task) (t : Task) : Option Task :=
  match acc with
  | none => some t
  | some m => if m.id < t.id then some t else some m

/-- `utils.GetLastTask`: `SELECT ... ORDER BY id DESC LIMIT 1`, `nil` on an
empty table. -/
def GetLastTask (s : DBState) : Option Task := s.foldl glStep none

/-- Title of the i-th generated dummy task, `fmt.Sprintf("Task %d", id)`. -/
def dummyTitle (id : Int) : String := s!"Task {id}"

/-- Description of the i-th generated dummy task. -/
def dummyDescription (id : Int) : String := s!"Description for task {id}"

/-- The insert loop of `utils.GenerateDummyTasks`: `count` inserts of
sequentially numbered placeholder rows. -/
def genLoop : Nat → Int → Int → Int → DBState → DBState
  | 0, _, _, _, s => s
  | n + 1, id, pos, now, s =>
      genLoop n (id + 1) (pos + 1) now
        (AddTask (dummyTitle id) (dummyDescription id) pos now s).2

/-- `utils.GenerateDummyTasks` (success path): reads `GetLastTask`, derives
`startID`/`startPosition` from it, then inserts `count` placeholder rows. -/
def GenerateDummyTasks (count : Nat) (now : Int) (s : DBState) : DBState :=
  let startID : Int := match GetLastTask s with | none => 1 | some t => t.id + 1
  let startPosition : Int :=
    match GetLastTask s with | none => 1 | some t => t.position + 1
  genLoop count startID startPosition now s

/-! ### HTTP handlers (`main.go`) -/

/-- The validation loop of the array branch of `POST /tasks`: for each item in
array order, the title/position check (400) then `CheckPositionExists` against
the stored tasks (400).  `none` means every item passed. -/
def firstValidationError : List TaskInput → DBState → Option Nat
  | [], _ => none
  | it :: rest, s =>
      if it.title = "" ∨ it.position ≤ 0 then some 400
      else if CheckPositionExists it.position s then some 400
      else firstValidationError rest s

/-- The insert loop of the array branch of `POST /tasks`: one `AddTask` per
item, each committed independently; `insFails i` says whether the i-th insert
fails at the storage level, in which case the handler returns 500 leaving the
earlier inserts committed. -/
def insertLoop : List TaskInput → (Nat → Bool) → Nat → Int → DBState → Nat × DBState
  | [], _, _, _, s => (201, s)
  | it :: rest, f, i, now, s =>
      if f i then (500, s)
      else insertLoop rest f (i + 1) now
        (AddTask it.title it.description it.position now s).2

/-- The array branch of `POST /tasks`: validate every item first, then insert
each item independently (no wrapping transaction).  Returns the HTTP status and
the committed state. -/
def postTasksArray (items : List TaskInput) (insFails : Nat → Bool) (now : Int)
    (s : DBState) : Nat × DBState :=
  match firstValidationError items s with
  | some e => (e, s)
  | none => insertLoop items insFails 0 now s

/-- The single-task branch of `POST /tasks` (success path of the storage calls). -/
def postTaskSingle (it : TaskInput) (now : Int) (s : DBState) : Nat × DBState :=
  if it.title = "" ∨ it.position ≤ 0 then (400, s)
  else if CheckPositionExists it.position s then (400, s)
  else (201, (AddTask it.title it.description it.position now s).2)

/-- The JSON body of `PUT /tasks/:id`; a `none` field is absent from the body
and decodes to Go's zero value. -/
structure UpdateBody where
  title : Option String
  description : Option String
  position : Option Int
deriving DecidableEq

/-- `PUT /tasks/:id`: id check (400), `CheckTaskExists` (404), JSON binding with
Go zero values for absent fields, then `utils.UpdateTask` (success path). -/
def putTask (id : Int) (body : UpdateBody) (now : Int) (s : DBState) :
    Nat × DBState :=
  if id ≤ 0 then (400, s)
  else if CheckTaskExists id s then
    (200, UpdateTask id (body.title.getD "") (body.description.getD "")
            (body.position.getD 0) now s)
  else (404, s)

/-- `DELETE /tasks/:id`: id check (400), `CheckTaskExists` (404), then
`utils.DeleteTask` (success path). -/
def deleteTaskHandler (id : Int) (s : DBState) : Nat × DBState :=
  if id ≤ 0 then (400, s)
  else if CheckTaskExists id s then (200, DeleteTask id s)
  else (404, s)

/-- One `{id, position}` pair of the `PATCH /tasks/reorder` body. -/
structure ReorderPair where
  id : Int
  position : Int
deriving DecidableEq

/-- The validation loop of `PATCH /tasks/reorder`: for each pair in order,
`task.ID == 0 || task.Position <= 0` (400) then `CheckTaskExists` (404),
all against the committed state, before any transaction is begun. -/
def firstReorderError : List ReorderPair → DBState → Option Nat
  | [], _ => none
  | p :: rest, s =>
      if p.id = 0 ∨ p.position ≤ 0 then some 400
      else if CheckTaskExists p.id s then firstReorderError rest s
      else some 404

/-- Effect of one `tx.Exec("UPDATE tasks SET position = ?, updated_at = ?
WHERE id = ?")` on the staged state. -/
def reorderExec (id position now : Int) (s : DBState) : DBState :=
  s.map (fun t => if t.id = id then { t with position := position, updatedAt := now } else t)

/-- The exec loop of the reorder transaction: staged updates accumulate; a
failing exec (`execFails i`) aborts, which rolls the transaction back. -/
def txExecLoop : List ReorderPair → (Nat → Bool) → Nat → Int → DBState → Option DBState
  | [], _, _, _, staged => some staged
  | p :: rest, f, i, now, staged =>
      if f i then none
      else txExecLoop rest f (i + 1) now (reorderExec p.id p.position now staged)

/-- `PATCH /tasks/reorder`: validate every pair, then run all updates inside
one transaction; any exec failure returns 500 with the transaction rolled
back, otherwise commit and return 200. -/
def patchReorder (pairs : List ReorderPair) (execFails : Nat → Bool) (now : Int)
    (s : DBState) : Nat × DBState :=
  match firstReorderError pairs s with
  | some e => (e, s)
  | none =>
      match txExecLoop pairs execFails 0 now s with
      | none => (500, s)
      | some staged => (200, staged)

/-! ### Derived vocabulary used by the claims -/

/-- The position-uniqueness invariant of the data model. -/
def PosDistinct (s : DBState) : Prop := (s.map (fun t => t.position)).Nodup

instance (s : DBState) : Decidable (PosDistinct s) := by
  unfold PosDistinct
  exact List.nodupDecidable _

/-- Folding `AddTask` over a list of items (the committed effect of a fully
successful array-create insert loop). -/
def addAll (items : List TaskInput) (now : Int) (s : DBState) : DBState :=
  items.foldl (fun s it => (AddTask it.title it.description it.position now s).2) s

/-- The rows `GenerateDummyTasks` appends on success: `n` placeholder rows with
consecutive ids from `id` and consecutive positions from `pos`. -/
def dummyList : Nat → Int → Int → Int → List Task
  | 0, _, _, _ => []
  | n + 1, id, pos, now =>
      Task.mk id (dummyTitle id) (dummyDescription id) pos now now
        :: dummyList n (id + 1) (pos + 1) now

/-- Operations whose handlers guard position uniqueness: single create and the
delete handlers. -/
inductive SafeOp where
  | createOne (item : TaskInput) (now : Int)
  | deleteOne (id : Int)
  | deleteAll

/-- Committed state after one safe operation. -/
def runSafeOp (op : SafeOp) (s : DBState) : DBState :=
  match op with
  | .createOne it now => (postTaskSingle it now s).2
  | .deleteOne id => (deleteTaskHandler id s).2
  | .deleteAll => DeleteAllTasks s

/-- Committed state after a sequence of safe operations. -/
def runSafeOps (ops : List SafeOp) (s : DBState) : DBState :=
  ops.foldl (fun s op => runSafeOp op s) s

/-! ### Concrete states used to exercise the operations -/

/-- Two stored tasks with distinct positions 1 and 2. -/
def c1s : DBState := [⟨1, "A", "", 1, 0, 0⟩, ⟨2, "B", "", 2, 0, 0⟩]

/-- Distinct positions, where the most recently inserted row does not carry
the maximal position. -/
def c1gen : DBState := [⟨1, "A", "", 5, 0, 0⟩, ⟨2, "B", "", 1, 0, 0⟩]

/-- Maximal position 10, while the row with the maximal id has position 3. -/
def c3s : DBState := [⟨1, "A", "", 10, 0, 0⟩, ⟨2, "B", "", 3, 0, 0⟩]

/-- A one-row state. -/
def c2s : DBState := [⟨1, "A", "", 1, 0, 0⟩]

/-! ### Shared lemmas -/

/-- A failing exec inside the reorder transaction makes the exec loop abort,
whatever was staged so far. -/
theorem txExecLoop_eq_none :
    ∀ (pairs : List ReorderPair) (f : Nat → Bool) (i : Nat) (now : Int)
      (staged : DBState),
      (∃ k, k < pairs.length ∧ f (i + k) = true) →
      txExecLoop pairs f i now staged = none := by
  intro pairs
  induction pairs with
  | nil =>
      intro f i now staged h
      obtain ⟨k, hk, _⟩ := h
      exact absurd hk (Nat.not_lt_zero k)
  | cons p rest ih =>
      intro f i now staged h
      obtain ⟨k, hk, hfk⟩ := h
      unfold txExecLoop
      by_cases hfi : f i = true
      · simp [hfi]
      · simp only [hfi, if_false, Bool.false_eq_true]
        apply ih
        cases k with
        | zero => exact absurd (by simpa using hfk) hfi
        | succ m =>
            refine ⟨m, by simpa using hk, ?_⟩
            have harith : i + 1 + m = i + (m + 1) := by omega
            rw [harith]
            exact hfk

/-- Folding one more insert. -/
theorem addAll_cons (it : TaskInput) (items : List TaskInput) (now : Int)
    (s : DBState) :
    addAll (it :: items) now s
      = addAll items now (AddTask it.title it.description it.position now s).2 := rfl

/-- Positions after a fully successful insert loop: the stored positions
followed by the request's positions, in order. -/
theorem addAll_map_position :
    ∀ (items : List TaskInput) (now : Int) (s : DBState),
      (addAll items now s).map (fun t => t.position)
        = s.map (fun t => t.position) ++ items.map (fun it => it.position) := by
  intro items
  induction items with
  | nil => intro now s; simp [addAll]
  | cons it rest ih =>
      intro now s
      rw [addAll_cons, ih]
      simp [AddTask]

/-- Some item failing its per-item check makes the validation loop report 400. -/
theorem firstValidationError_eq_some :
    ∀ (items : List TaskInput) (s : DBState),
      (∃ it ∈ items, it.title = "" ∨ it.position ≤ 0 ∨
        CheckPositionExists it.position s = true) →
      firstValidationError items s = some 400 := by
  intro items s
  induction items with
  | nil =>
      intro h
      obtain ⟨it, hmem, _⟩ := h
      exact absurd hmem (List.not_mem_nil it)
  | cons it rest ih =>
      intro h
      unfold firstValidationError
      by_cases h1 : it.title = "" ∨ it.position ≤ 0
      · simp [h1]
      · rw [if_neg h1]
        by_cases h2 : CheckPositionExists it.position s = true
        · simp [h2]
        · rw [if_neg h2]
          apply ih
          obtain ⟨u, hmem, hbad⟩ := h
          rcases List.mem_cons.mp hmem with rfl | hmem'
          · rcases hbad with hb | hb | hb
            · exact absurd (Or.inl hb) h1
            · exact absurd (Or.inr hb) h1
            · exact absurd hb h2
          · exact ⟨u, hmem', hbad⟩

/-- Every item passing its per-item check makes the validation loop accept. -/
theorem firstValidationError_eq_none :
    ∀ (items : List TaskInput) (s : DBState),
      (∀ it ∈ items, it.title ≠ "" ∧ 0 < it.position ∧
        CheckPositionExists it.position s = false) →
      firstValidationError items s = none := by
  intro items s
  induction items with
  | nil => intro _; rfl
  | cons it rest ih =>
      intro h
      obtain ⟨ht, hp, hc⟩ := h it (List.mem_cons_self it rest)
      unfold firstValidationError
      rw [if_neg (by push_neg; exact ⟨ht, by omega⟩), if_neg (by simp [hc])]
      exact ih (fun u hu => h u (List.mem_cons_of_mem it hu))

/-- A fully successful insert loop returns 201 and commits every item in order. -/
theorem insertLoop_all_ok :
    ∀ (items : List TaskInput) (f : Nat → Bool) (i : Nat) (now : Int) (s : DBState),
      (∀ j, j < items.length → f (i + j) = false) →
      insertLoop items f i now s = (201, addAll items now s) := by
  intro items
  induction items with
  | nil => intro f i now s _; rfl
  | cons it rest ih =>
      intro f i now s h
      have hfi : f i = false := by simpa using h 0 (by simp)
      unfold insertLoop
      simp only [hfi, Bool.false_eq_true, if_false]
      rw [addAll_cons]
      apply ih
      intro j hj
      have harith : i + 1 + j = i + (j + 1) := by omega
      rw [harith]
      exact h (j + 1) (by simpa using Nat.succ_lt_succ hj)

/-- The insert loop stops at the first failing insert, returning 500 and
keeping exactly the earlier items' inserts committed. -/
theorem insertLoop_stops_at_failure :
    ∀ (items : List TaskInput) (f : Nat → Bool) (i k : Nat) (now : Int) (s : DBState),
      k < items.length → f (i + k) = true → (∀ j, j < k → f (i + j) = false) →
      insertLoop items f i now s = (500, addAll (items.take k) now s) := by
  intro items
  induction items with
  | nil =>
      intro f i k now s hk _ _
      exact absurd hk (Nat.not_lt_zero k)
  | cons it rest ih =>
      intro f i k now s hk hfk hbefore
      cases k with
      | zero =>
          have hfi : f i = true := by simpa using hfk
          unfold insertLoop
          simp [hfi, addAll]
      | succ m =>
          have hfi : f i = false := by simpa using hbefore 0 (Nat.succ_pos m)
          unfold insertLoop
          simp only [hfi, Bool.false_eq_true, if_false]
          have h1 : f (i + 1 + m) = true := by
            have harith : i + 1 + m = i + (m + 1) := by omega
            rw [harith]; exact hfk
          have h2 : ∀ j, j < m → f (i + 1 + j) = false := by
            intro j hj
            have harith : i + 1 + j = i + (j + 1) := by omega
            rw [harith]
            exact hbefore (j + 1) (Nat.succ_lt_succ hj)
          rw [ih f (i + 1) m now _ (by simpa using hk) h1 h2]
          rfl

/-- With every pair passing the basic id/position check, a missing id makes
the reorder validation loop report 404. -/
theorem firstReorderError_eq_404 :
    ∀ (pairs : List ReorderPair) (s : DBState),
      (∀ p ∈ pairs, p.id ≠ 0 ∧ 0 < p.position) →
      (∃ p ∈ pairs, CheckTaskExists p.id s = false) →
      firstReorderError pairs s = some 404 := by
  intro pairs s
  induction pairs with
  | nil =>
      intro _ h
      obtain ⟨p, hmem, _⟩ := h
      exact absurd hmem (List.not_mem_nil p)
  | cons p rest ih =>
      intro hv h
      obtain ⟨hid, hpos⟩ := hv p (List.mem_cons_self p rest)
      unfold firstReorderError
      rw [if_neg (by push_neg; exact ⟨hid, by omega⟩)]
      by_cases hex : CheckTaskExists p.id s = true
      · rw [if_pos hex]
        apply ih (fun q hq => hv q (List.mem_cons_of_mem p hq))
        obtain ⟨q, hmem, hq⟩ := h
        rcases List.mem_cons.mp hmem with rfl | hmem'
        · rw [hex] at hq; exact absurd hq (by simp)
        · exact ⟨q, hmem', hq⟩
      · rw [if_neg hex]

/-- With every pair valid and every id present, the reorder validation loop
accepts. -/
theorem firstReorderError_eq_none :
    ∀ (pairs : List ReorderPair) (s : DBState),
      (∀ p ∈ pairs, p.id ≠ 0 ∧ 0 < p.position ∧ CheckTaskExists p.id s = true) →
      firstReorderError pairs s = none := by
  intro pairs s
  induction pairs with
  | nil => intro _; rfl
  | cons p rest ih =>
      intro hv
      obtain ⟨hid, hpos, hex⟩ := hv p (List.mem_cons_self p rest)
      unfold firstReorderError
      rw [if_neg (by push_neg; exact ⟨hid, by omega⟩), if_pos hex]
      exact ih (fun q hq => hv q (List.mem_cons_of_mem p hq))

/-- At most one stored row matches a given id when ids are pairwise distinct. -/
theorem countP_match_le_one :
    ∀ (s : DBState), (s.map (fun t => t.id)).Nodup → ∀ id : Int,
      s.countP (fun t => decide (t.id = id)) ≤ 1 := by
  intro s
  induction s with
  | nil => intro _ id; simp
  | cons t ts ih =>
      intro hnd id
      rw [List.map_cons, List.nodup_cons] at hnd
      obtain ⟨hnotin, hnd'⟩ := hnd
      rw [List.countP_cons]
      by_cases h : t.id = id
      · have hzero : ts.countP (fun t => decide (t.id = id)) = 0 := by
          rw [List.countP_eq_zero]
          intro u hu
          simp only [decide_eq_true_eq]
          intro huid
          exact hnotin (List.mem_map.mpr ⟨u, hu, huid.trans h.symm⟩)
        simp [h, hzero]
      · have hdec : decide (t.id = id) = false := by simpa using h
        simp only [hdec, Bool.false_eq_true, if_false, Nat.add_zero]
        exact ih hnd' id

/-- An insert whose position passed the existence check preserves
pairwise-distinct positions. -/
theorem posDistinct_addTask (title descr : String) (p now : Int) (s : DBState)
    (h : PosDistinct s) (hfree : CheckPositionExists p s = false) :
    PosDistinct (AddTask title descr p now s).2 := by
  unfold PosDistinct at h ⊢
  show (List.map (fun t => t.position) (s ++ [⟨nextId s, title, descr, p, now, now⟩])).Nodup
  rw [List.map_append]
  refine List.Nodup.append h (List.nodup_singleton _) ?_
  intro a ha hp
  rw [List.map_singleton, List.mem_singleton] at hp
  obtain ⟨t, ht, htp⟩ := List.mem_map.mp ha
  have hc : CheckPositionExists p s = true := by
    unfold CheckPositionExists
    rw [List.any_eq_true]
    exact ⟨t, ht, by simp [htp.trans hp]⟩
  rw [hfree] at hc
  exact Bool.false_ne_true hc

/-- The single-create handler preserves pairwise-distinct positions. -/
theorem posDistinct_postTaskSingle (it : TaskInput) (now : Int) (s : DBState)
    (h : PosDistinct s) : PosDistinct (postTaskSingle it now s).2 := by
  unfold postTaskSingle
  by_cases h1 : it.title = "" ∨ it.position ≤ 0
  · rw [if_pos h1]; exact h
  · rw [if_neg h1]
    by_cases h2 : CheckPositionExists it.position s = true
    · rw [if_pos h2]; exact h
    · rw [if_neg h2]
      exact posDistinct_addTask _ _ _ _ s h (by simpa using h2)

/-- Removing rows preserves pairwise-distinct positions. -/
theorem posDistinct_filter (q : Task → Bool) (s : DBState) (h : PosDistinct s) :
    PosDistinct (s.filter q) := by
  unfold PosDistinct at h ⊢
  exact List.Nodup.sublist (List.Sublist.map _ (List.filter_sublist s)) h

/-- Every safe operation preserves pairwise-distinct positions. -/
theorem posDistinct_runSafeOp (op : SafeOp) (s : DBState) (h : PosDistinct s) :
    PosDistinct (runSafeOp op s) := by
  cases op with
  | createOne it now => exact posDistinct_postTaskSingle it now s h
  | deleteOne id =>
      show PosDistinct (deleteTaskHandler id s).2
      unfold deleteTaskHandler
      by_cases h1 : id ≤ 0
      · rw [if_pos h1]; exact h
      · rw [if_neg h1]
        by_cases h2 : CheckTaskExists id s = true
        · rw [if_pos h2]; exact posDistinct_filter _ s h
        · rw [if_neg h2]; exact h
  | deleteAll => exact List.nodup_nil

/-- Sorting by position permutes the stored positions. -/
theorem sortByPos_map_perm (s : DBState) :
    ((sortByPos s).map (fun t => t.position)).Perm (s.map (fun t => t.position)) :=
  (List.perm_insertionSort posLe s).map _

/-- AUTOINCREMENT: each insert bumps the next assigned id by one. -/
theorem nextId_addTask (title descr : String) (p now : Int) (s : DBState) :
    nextId (AddTask title descr p now s).2 = nextId s + 1 := by
  simp only [AddTask, nextId, maxId, List.foldl_append, List.foldl_cons, List.foldl_nil]
  omega

/-- A run of the generate loop appends exactly the placeholder rows, given
that the loop's id counter agrees with the next AUTOINCREMENT id. -/
theorem genLoop_spec :
    ∀ (n : Nat) (id pos now : Int) (s : DBState), nextId s = id →
      genLoop n id pos now s = s ++ dummyList n id pos now := by
  intro n
  induction n with
  | zero => intro id pos now s _; simp [genLoop, dummyList]
  | succ m ih =>
      intro id pos now s hid
      have hnext : nextId (AddTask (dummyTitle id) (dummyDescription id) pos now s).2
          = id + 1 := by rw [nextId_addTask, hid]
      have hstep : (AddTask (dummyTitle id) (dummyDescription id) pos now s).2
          = s ++ [⟨id, dummyTitle id, dummyDescription id, pos, now, now⟩] := by
        show s ++ [⟨nextId s, dummyTitle id, dummyDescription id, pos, now, now⟩]
            = s ++ [⟨id, dummyTitle id, dummyDescription id, pos, now, now⟩]
        rw [hid]
      calc genLoop (m + 1) id pos now s
          = genLoop m (id + 1) (pos + 1) now
              (AddTask (dummyTitle id) (dummyDescription id) pos now s).2 := rfl
        _ = (AddTask (dummyTitle id) (dummyDescription id) pos now s).2
              ++ dummyList m (id + 1) (pos + 1) now := ih _ _ _ _ hnext
        _ = (s ++ [⟨id, dummyTitle id, dummyDescription id, pos, now, now⟩])
              ++ dummyList m (id + 1) (pos + 1) now := by rw [hstep]
        _ = s ++ dummyList (m + 1) id pos now := by
              rw [List.append_assoc]
              rfl

/-- The final accumulator of the max-id scan is a row whose id folds the
maximum over the remaining rows. -/
theorem glStep_foldl_spec :
    ∀ (s : List Task) (m : Task),
      ∃ m', s.foldl glStep (some m) = some m'
        ∧ m'.id = s.foldl (fun x t => max x t.id) m.id := by
  intro s
  induction s with
  | nil => intro m; exact ⟨m, rfl, rfl⟩
  | cons t ts ih =>
      intro m
      rw [List.foldl_cons, List.foldl_cons]
      by_cases h : m.id < t.id
      · have hg : glStep (some m) t = some t := by
          show (if m.id < t.id then some t else some m) = some t
          exact if_pos h
        rw [hg]
        obtain ⟨m', hm', hid⟩ := ih t
        refine ⟨m', hm', ?_⟩
        rw [max_eq_right (le_of_lt h)]
        exact hid
      · have hg : glStep (some m) t = some m := by
          show (if m.id < t.id then some t else some m) = some m
          exact if_neg h
        rw [hg]
        obtain ⟨m', hm', hid⟩ := ih m
        refine ⟨m', hm', ?_⟩
        rw [max_eq_left (le_of_not_lt h)]
        exact hid

/-- When all stored ids are at least 1, the id the generate loop starts from
(one past the id of the `ORDER BY id DESC LIMIT 1` row) is the next
AUTOINCREMENT id. -/
theorem getLastTask_of_pos :
    ∀ (s : DBState), (∀ t ∈ s, 1 ≤ t.id) →
      (match GetLastTask s with | none => 1 | some t => t.id + 1) = nextId s := by
  intro s hpos
  cases s with
  | nil => rfl
  | cons t ts =>
      unfold GetLastTask
      rw [List.foldl_cons]
      have hg : glStep none t = some t := rfl
      rw [hg]
      obtain ⟨m', hm', hid⟩ := glStep_foldl_spec ts t
      rw [hm']
      show m'.id + 1 = nextId (t :: ts)
      unfold nextId maxId
      rw [List.foldl_cons]
      have h0 : max (0 : Int) t.id = t.id :=
        max_eq_right (le_trans (by omega) (hpos t (List.mem_cons_self t ts)))
      rw [h0, hid]
      omega

/-- Length of the generated placeholder rows. -/
theorem dummyList_length :
    ∀ (n : Nat) (id pos now : Int), (dummyList n id pos now).length = n := by
  intro n
  induction n with
  | zero => intro id pos now; rfl
  | succ m ih => intro id pos now; simp [dummyList, ih]

/-- Ids of the generated placeholder rows: consecutive from the start id. -/
theorem dummyList_map_id :
    ∀ (n : Nat) (id pos now : Int),
      (dummyList n id pos now).map (fun t => t.id)
        = (List.range n).map (fun i : Nat => id + (i : Int)) := by
  intro n
  induction n with
  | zero => intro id pos now; rfl
  | succ m ih =>
      intro id pos now
      show (id :: (dummyList m (id + 1) (pos + 1) now).map (fun t => t.id))
          = (List.range (m + 1)).map (fun i : Nat => id + (i : Int))
      rw [ih, List.range_succ_eq_map]
      simp only [List.map_cons, List.map_map, Nat.cast_zero]
      congr 1
      · omega
      · apply List.map_congr_left
        intro a _
        simp only [Function.comp]
        omega

/-- Positions of the generated placeholder rows: consecutive from the start
position. -/
theorem dummyList_map_position :
    ∀ (n : Nat) (id pos now : Int),
      (dummyList n id pos now).map (fun t => t.position)
        = (List.range n).map (fun i : Nat => pos + (i : Int)) := by
  intro n
  induction n with
  | zero => intro id pos now; rfl
  | succ m ih =>
      intro id pos now
      show (pos :: (dummyList m (id + 1) (pos + 1) now).map (fun t => t.position))
          = (List.range (m + 1)).map (fun i : Nat => pos + (i : Int))
      rw [ih, List.range_succ_eq_map]
      simp only [List.map_cons, List.map_map, Nat.cast_zero]
      congr 1
      · omega
      · apply List.map_congr_left
        intro a _
        simp only [Function.comp]
        omega

/-- Adding a constant to the range gives a strictly increasing list. -/
theorem range_map_add_pairwise (n : Nat) (c : Int) :
    ((List.range n).map (fun i : Nat => c + (i : Int))).Pairwise (· < ·) := by
  apply List.pairwise_map.mpr
  apply (List.pairwise_lt_range n).imp
  intro a b h
  have hab : a < b := h
  show c + (a : Int) < c + (b : Int)
  omega

/-! ### Claim theorems -/

/-- C10: a reorder request whose body is the empty JSON array succeeds with
status 200 and leaves every stored task unchanged. -/
theorem c10_empty_reorder_noop (f : Nat → Bool) (now : Int) (s : DBState) :
    patchReorder [] f now s = (200, s) := rfl

/-- C2: reorder is atomic — if any single update exec of the batch fails
during the transaction, the committed state after the request equals the
state before it. -/
theorem c2_reorder_atomic (pairs : List ReorderPair) (f : Nat → Bool) (now : Int)
    (s : DBState) (h : ∃ k, k < pairs.length ∧ f k = true) :
    (patchReorder pairs f now s).2 = s := by
  unfold patchReorder
  cases hfe : firstReorderError pairs s with
  | some e => rfl
  | none =>
      have habort : txExecLoop pairs f 0 now s = none := by
        apply txExecLoop_eq_none
        obtain ⟨k, hk, hfk⟩ := h
        exact ⟨k, hk, by simpa using hfk⟩
      rw [habort]

/-- Witness for C2: a one-pair batch whose exec fails leaves the one-row state
untouched. -/
theorem c2_reorder_atomic_witness :
    (∃ k, k < ([⟨1, 2⟩] : List ReorderPair).length ∧ (fun _ => true) k = true) ∧
    (patchReorder [⟨1, 2⟩] (fun _ => true) 7 c2s).2 = c2s :=
  ⟨⟨0, Nat.zero_lt_one, rfl⟩,
    c2_reorder_atomic [⟨1, 2⟩] (fun _ => true) 7 c2s ⟨0, Nat.zero_lt_one, rfl⟩⟩

/-- C1 (counterexample): update, reorder, array-create and generateBulk can
each turn a committed state with pairwise-distinct positions into a committed
state with two tasks at the same position, so position uniqueness is not an
invariant of every committed state. -/
theorem c1_counterexample_uniqueness_violations :
    (PosDistinct c1s ∧ (putTask 2 ⟨some "B", none, some 1⟩ 5 c1s).1 = 200 ∧
        ¬ PosDistinct (putTask 2 ⟨some "B", none, some 1⟩ 5 c1s).2) ∧
    ((patchReorder [⟨2, 1⟩] (fun _ => false) 5 c1s).1 = 200 ∧
        ¬ PosDistinct (patchReorder [⟨2, 1⟩] (fun _ => false) 5 c1s).2) ∧
    ((postTasksArray [⟨"A", "", 1⟩, ⟨"B", "", 1⟩] (fun _ => false) 0 []).1 = 201 ∧
        ¬ PosDistinct (postTasksArray [⟨"A", "", 1⟩, ⟨"B", "", 1⟩] (fun _ => false) 0 []).2) ∧
    (PosDistinct c1gen ∧ ¬ PosDistinct (GenerateDummyTasks 4 0 c1gen)) := by
  decide

/-- C4 (counterexample): on a request whose first item passes every per-item
check and whose second item fails validation, the handler returns 400 with
nothing committed, so an accepted item is not committed as soon as it is
validated. -/
theorem c4_counterexample_validate_all_first :
    ((⟨"A", "d", 1⟩ : TaskInput).title ≠ "" ∧
        0 < (⟨"A", "d", 1⟩ : TaskInput).position ∧
        CheckPositionExists (⟨"A", "d", 1⟩ : TaskInput).position [] = false) ∧
    postTasksArray [⟨"A", "d", 1⟩, ⟨"", "", 2⟩] (fun _ => false) 0 [] = (400, []) := by
  decide

/-- C4 (amended): the array branch validates every item in array order before
any insert — a validation failure returns 400 with no inserts committed; the
inserts are then committed one at a time with no wrapping transaction, so an
insert failure partway returns 500 with exactly the earlier items' inserts
committed, and when no insert fails all items are committed with 201. -/
theorem c4_amended_array_create (items : List TaskInput) (f : Nat → Bool)
    (now : Int) (s : DBState) :
    ((∃ it ∈ items, it.title = "" ∨ it.position ≤ 0 ∨
          CheckPositionExists it.position s = true) →
        postTasksArray items f now s = (400, s)) ∧
    ((∀ it ∈ items, it.title ≠ "" ∧ 0 < it.position ∧
          CheckPositionExists it.position s = false) →
      (∀ k, k < items.length → f k = true → (∀ j, j < k → f j = false) →
          postTasksArray items f now s = (500, addAll (items.take k) now s)) ∧
      ((∀ j, j < items.length → f j = false) →
          postTasksArray items f now s = (201, addAll items now s))) := by
  constructor
  · intro hbad
    unfold postTasksArray
    rw [firstValidationError_eq_some items s hbad]
  · intro hvalid
    constructor
    · intro k hk hfk hbefore
      unfold postTasksArray
      rw [firstValidationError_eq_none items s hvalid]
      exact insertLoop_stops_at_failure items f 0 k now s hk
        (by simpa using hfk) (fun j hj => by simpa using hbefore j hj)
    · intro hok
      unfold postTasksArray
      rw [firstValidationError_eq_none items s hvalid]
      exact insertLoop_all_ok items f 0 now s (fun j hj => by simpa using hok j hj)

/-- Witness for C4 (amended), exercising all three branches at concrete
requests: a mid-loop insert failure keeps the first insert, a validation
failure commits nothing, and a clean run commits everything. -/
theorem c4_amended_array_create_witness :
    ((∀ it ∈ ([⟨"A", "x", 1⟩, ⟨"B", "y", 2⟩] : List TaskInput),
        it.title ≠ "" ∧ 0 < it.position ∧ CheckPositionExists it.position [] = false) ∧
      postTasksArray [⟨"A", "x", 1⟩, ⟨"B", "y", 2⟩] (fun j => j == 1) 3 []
        = (500, addAll (([⟨"A", "x", 1⟩, ⟨"B", "y", 2⟩] : List TaskInput).take 1) 3 [])) ∧
    ((∃ it ∈ ([⟨"", "x", 1⟩] : List TaskInput), it.title = "" ∨ it.position ≤ 0 ∨
        CheckPositionExists it.position [] = true) ∧
      postTasksArray [⟨"", "x", 1⟩] (fun _ => false) 3 [] = (400, [])) ∧
    postTasksArray [⟨"A", "x", 1⟩] (fun _ => false) 3 []
      = (201, addAll [⟨"A", "x", 1⟩] 3 []) := by
  refine ⟨⟨by decide, ?_⟩, ⟨by decide, ?_⟩, ?_⟩
  · exact ((c4_amended_array_create [⟨"A", "x", 1⟩, ⟨"B", "y", 2⟩] (fun j => j == 1)
      3 []).2 (by decide)).1 1 (by decide) (by decide)
      (fun j hj => by
        have hj0 : j = 0 := by omega
        subst hj0; rfl)
  · exact (c4_amended_array_create [⟨"", "x", 1⟩] (fun _ => false) 3 []).1 (by decide)
  · exact ((c4_amended_array_create [⟨"A", "x", 1⟩] (fun _ => false) 3 []).2
      (by decide)).2 (fun j hj => rfl)

/-- C8: an array create whose items each pass the per-item checks against the
stored tasks, while two of them share a position with each other, returns 201
and inserts every item — the position-existence check consults only the stored
tasks, never the other items of the same request. -/
theorem c8_intra_batch_duplicate_positions_accepted (items : List TaskInput)
    (f : Nat → Bool) (now : Int) (s : DBState)
    (hvalid : ∀ it ∈ items, it.title ≠ "" ∧ 0 < it.position ∧
        CheckPositionExists it.position s = false)
    (hdup : ∃ i j : Fin (items.map (fun it => it.position)).length, i ≠ j ∧
        (items.map (fun it => it.position)).get i
          = (items.map (fun it => it.position)).get j)
    (hnofail : ∀ j, j < items.length → f j = false) :
    postTasksArray items f now s = (201, addAll items now s) ∧
    (addAll items now s).map (fun t => t.position)
      = s.map (fun t => t.position) ++ items.map (fun it => it.position) ∧
    ¬ PosDistinct (addAll items now s) := by
  refine ⟨?_, addAll_map_position items now s, ?_⟩
  · unfold postTasksArray
    rw [firstValidationError_eq_none items s hvalid]
    exact insertLoop_all_ok items f 0 now s (fun j hj => by simpa using hnofail j hj)
  · intro hnd
    unfold PosDistinct at hnd
    rw [addAll_map_position items now s] at hnd
    obtain ⟨i, j, hne, heq⟩ := hdup
    exact hne (hnd.of_append_right.get_inj_iff.mp heq)

/-- Witness for C8: two fresh items both at position 7 on a one-row state are
both inserted with 201, leaving a duplicated position. -/
theorem c8_intra_batch_duplicate_positions_accepted_witness :
    (∀ it ∈ ([⟨"X", "", 7⟩, ⟨"Y", "", 7⟩] : List TaskInput),
        it.title ≠ "" ∧ 0 < it.position ∧ CheckPositionExists it.position c2s = false) ∧
    (∃ i j : Fin (([⟨"X", "", 7⟩, ⟨"Y", "", 7⟩] : List TaskInput).map
        (fun it => it.position)).length, i ≠ j ∧
        (([⟨"X", "", 7⟩, ⟨"Y", "", 7⟩] : List TaskInput).map (fun it => it.position)).get i
          = (([⟨"X", "", 7⟩, ⟨"Y", "", 7⟩] : List TaskInput).map (fun it => it.position)).get j) ∧
    (postTasksArray [⟨"X", "", 7⟩, ⟨"Y", "", 7⟩] (fun _ => false) 9 c2s
        = (201, addAll [⟨"X", "", 7⟩, ⟨"Y", "", 7⟩] 9 c2s) ∧
      (addAll [⟨"X", "", 7⟩, ⟨"Y", "", 7⟩] 9 c2s).map (fun t => t.position)
        = c2s.map (fun t => t.position)
          ++ ([⟨"X", "", 7⟩, ⟨"Y", "", 7⟩] : List TaskInput).map (fun it => it.position) ∧
      ¬ PosDistinct (addAll [⟨"X", "", 7⟩, ⟨"Y", "", 7⟩] 9 c2s)) :=
  ⟨by decide, by decide,
    c8_intra_batch_duplicate_positions_accepted [⟨"X", "", 7⟩, ⟨"Y", "", 7⟩]
      (fun _ => false) 9 c2s (by decide) (by decide) (fun j hj => rfl)⟩

/-- C7: with every pair carrying a nonzero id and a positive position, a
missing id makes reorder fail with 404 before the transaction begins, with no
write at all; and with every id present, an exec failure mid-transaction
yields 500 with all changes rolled back. -/
theorem c7_reorder_validation_and_rollback (pairs : List ReorderPair)
    (f : Nat → Bool) (now : Int) (s : DBState) :
    ((∀ p ∈ pairs, p.id ≠ 0 ∧ 0 < p.position) →
      (∃ p ∈ pairs, CheckTaskExists p.id s = false) →
        patchReorder pairs f now s = (404, s)) ∧
    ((∀ p ∈ pairs, p.id ≠ 0 ∧ 0 < p.position ∧ CheckTaskExists p.id s = true) →
      (∃ k, k < pairs.length ∧ f k = true) →
        patchReorder pairs f now s = (500, s)) := by
  constructor
  · intro hv hmiss
    unfold patchReorder
    rw [firstReorderError_eq_404 pairs s hv hmiss]
  · intro hv hfail
    unfold patchReorder
    rw [firstReorderError_eq_none pairs s hv]
    rw [txExecLoop_eq_none pairs f 0 now s (by simpa using hfail)]

/-- Witness for C7: on a one-row state, a pair naming the absent id 5 yields
404 with the state untouched, and a failing exec on the present id 1 yields
500 with the state untouched. -/
theorem c7_reorder_validation_and_rollback_witness :
    ((∀ p ∈ ([⟨5, 1⟩] : List ReorderPair), p.id ≠ 0 ∧ 0 < p.position) ∧
      (∃ p ∈ ([⟨5, 1⟩] : List ReorderPair), CheckTaskExists p.id c2s = false) ∧
      patchReorder [⟨5, 1⟩] (fun _ => false) 2 c2s = (404, c2s)) ∧
    ((∀ p ∈ ([⟨1, 2⟩] : List ReorderPair), p.id ≠ 0 ∧ 0 < p.position ∧
        CheckTaskExists p.id c2s = true) ∧
      (∃ k, k < ([⟨1, 2⟩] : List ReorderPair).length ∧ (fun _ => true) k = true) ∧
      patchReorder [⟨1, 2⟩] (fun _ => true) 2 c2s = (500, c2s)) :=
  ⟨⟨by decide, by decide,
      (c7_reorder_validation_and_rollback [⟨5, 1⟩] (fun _ => false) 2 c2s).1
        (by decide) (by decide)⟩,
    ⟨by decide, ⟨0, Nat.zero_lt_one, rfl⟩,
      (c7_reorder_validation_and_rollback [⟨1, 2⟩] (fun _ => true) 2 c2s).2
        (by decide) ⟨0, Nat.zero_lt_one, rfl⟩⟩⟩

/-- C6: an update whose id references an existing task replaces the stored
title, description and position wholesale with the decoded body fields, a
field absent from the JSON body decoding to the empty string or zero. -/
theorem c6_update_full_replacement (id : Int) (body : UpdateBody) (now : Int)
    (s : DBState) (hid : 0 < id) (hex : CheckTaskExists id s = true) :
    (putTask id body now s).1 = 200 ∧
    (putTask id body now s).2
      = UpdateTask id (body.title.getD "") (body.description.getD "")
          (body.position.getD 0) now s ∧
    ∀ u ∈ (putTask id body now s).2, u.id = id →
      u.title = body.title.getD "" ∧ u.description = body.description.getD "" ∧
      u.position = body.position.getD 0 ∧ u.updatedAt = now := by
  have hle : ¬ id ≤ 0 := by omega
  unfold putTask
  rw [if_neg hle, if_pos hex]
  refine ⟨rfl, rfl, ?_⟩
  intro u hu huid
  simp only [UpdateTask, List.mem_map] at hu
  obtain ⟨t, htmem, rfl⟩ := hu
  by_cases h : t.id = id
  · simp [updRow, h]
  · simp only [updRow, if_neg h] at huid
    exact absurd huid h

/-- Witness for C6 at a concrete id, body and state (description absent from
the body, so it is overwritten with the empty string). -/
theorem c6_update_full_replacement_witness :
    (0 < (1 : Int)) ∧ CheckTaskExists 1 c2s = true ∧
    ((putTask 1 ⟨some "N", none, some 4⟩ 8 c2s).1 = 200 ∧
      (putTask 1 ⟨some "N", none, some 4⟩ 8 c2s).2 = UpdateTask 1 "N" "" 4 8 c2s ∧
      ∀ u ∈ (putTask 1 ⟨some "N", none, some 4⟩ 8 c2s).2, u.id = 1 →
        u.title = "N" ∧ u.description = "" ∧ u.position = 4 ∧ u.updatedAt = 8) :=
  ⟨by decide, by decide,
    c6_update_full_replacement 1 ⟨some "N", none, some 4⟩ 8 c2s (by decide) (by decide)⟩

/-- C9: UpdateTask touches at most the single row whose id matches — the
table size is unchanged, every row keeps its id and created_at, every row
with a different id is wholly unchanged, and at most one stored row can
match the id. -/
theorem c9_update_frame (id : Int) (title descr : String) (pos now : Int)
    (s : DBState) (hnd : (s.map (fun t => t.id)).Nodup) :
    (UpdateTask id title descr pos now s).length = s.length ∧
    List.Forall₂ (fun t u => u.id = t.id ∧ u.createdAt = t.createdAt ∧
        (t.id ≠ id → u = t)) s (UpdateTask id title descr pos now s) ∧
    s.countP (fun t => decide (t.id = id)) ≤ 1 := by
  refine ⟨by simp [UpdateTask], ?_, countP_match_le_one s hnd id⟩
  unfold UpdateTask
  rw [List.forall₂_map_right_iff, List.forall₂_same]
  intro t htmem
  by_cases h : t.id = id
  · unfold updRow
    rw [if_pos h]
    exact ⟨rfl, rfl, fun hne => absurd h hne⟩
  · unfold updRow
    rw [if_neg h]
    exact ⟨rfl, rfl, fun _ => rfl⟩

/-- Witness for C9 at a concrete update of id 2 on a two-row state. -/
theorem c9_update_frame_witness :
    (c1s.map (fun t => t.id)).Nodup ∧
    ((UpdateTask 2 "T" "D" 9 4 c1s).length = c1s.length ∧
      List.Forall₂ (fun t u => u.id = t.id ∧ u.createdAt = t.createdAt ∧
          (t.id ≠ 2 → u = t)) c1s (UpdateTask 2 "T" "D" 9 4 c1s) ∧
      c1s.countP (fun t => decide (t.id = 2)) ≤ 1) :=
  ⟨by decide, c9_update_frame 2 "T" "D" 9 4 c1s (by decide)⟩

/-- C3 (counterexample): on a state whose maximal position is 10 but whose
row with the maximal id has position 3, generateBulk(1) inserts a row at
position 4, not at the successor 11 of the maximal stored position. -/
theorem c3_counterexample_position_not_from_max :
    maxPosition c3s = 10 ∧
    GenerateDummyTasks 1 0 c3s
      = c3s ++ [⟨3, dummyTitle 3, dummyDescription 3, 4, 0, 0⟩] ∧
    (4 : Int) ≠ maxPosition c3s + 1 := by
  decide

/-- C1 (amended): position uniqueness is an invariant of the operations whose
handlers actually guard it — every sequence of single-create and delete
operations starting from a committed state with pairwise-distinct positions
only reaches committed states with pairwise-distinct positions (update,
reorder, array-create with intra-batch duplicates, and generateBulk do not
preserve it, per the counterexample). -/
theorem c1_amended_safe_ops_preserve_uniqueness (ops : List SafeOp) (s : DBState)
    (h : PosDistinct s) : PosDistinct (runSafeOps ops s) := by
  induction ops generalizing s with
  | nil => exact h
  | cons op rest ih => exact ih (runSafeOp op s) (posDistinct_runSafeOp op s h)

/-- Witness for C1 (amended): a concrete create/delete/create run from a
two-row state keeps positions distinct. -/
theorem c1_amended_safe_ops_preserve_uniqueness_witness :
    PosDistinct c1s ∧
    PosDistinct (runSafeOps
      [.createOne ⟨"C", "", 3⟩ 1, .deleteOne 1, .createOne ⟨"D", "", 1⟩ 2] c1s) :=
  ⟨by decide, c1_amended_safe_ops_preserve_uniqueness
    [.createOne ⟨"C", "", 3⟩ 1, .deleteOne 1, .createOne ⟨"D", "", 1⟩ 2] c1s (by decide)⟩

/-- C5: under the data model's position uniqueness, the paginated list is
strictly ordered by ascending position for every offset and limit, and the
returned total count equals the number of stored rows regardless of the
pagination window. -/
theorem c5_paginated_list_sorted_and_total (offset limit : Nat) (s : DBState)
    (h : PosDistinct s) :
    ((GetPaginatedTasks offset limit s).1.map (fun t => t.position)).Pairwise (· < ·) ∧
    (GetPaginatedTasks offset limit s).2 = s.length := by
  refine ⟨?_, rfl⟩
  have hsorted : (sortByPos s).Pairwise posLe := List.sorted_insertionSort posLe s
  have hle : ((sortByPos s).map (fun t => t.position)).Pairwise (· ≤ ·) :=
    List.pairwise_map.mpr hsorted
  have hnd : ((sortByPos s).map (fun t => t.position)).Nodup :=
    (sortByPos_map_perm s).nodup_iff.mpr h
  have hlt : ((sortByPos s).map (fun t => t.position)).Pairwise (· < ·) :=
    (hle.and hnd).imp (fun hab => lt_of_le_of_ne hab.1 hab.2)
  have hsub : List.Sublist
      ((((sortByPos s).drop offset).take limit).map (fun t => t.position))
      ((sortByPos s).map (fun t => t.position)) :=
    List.Sublist.map _
      ((List.take_sublist limit _).trans (List.drop_sublist offset _))
  exact List.Pairwise.sublist hsub hlt

/-- Witness for C5 at a concrete two-row state and window. -/
theorem c5_paginated_list_sorted_and_total_witness :
    PosDistinct c1gen ∧
    (((GetPaginatedTasks 0 10 c1gen).1.map (fun t => t.position)).Pairwise (· < ·) ∧
      (GetPaginatedTasks 0 10 c1gen).2 = c1gen.length) :=
  ⟨by decide, c5_paginated_list_sorted_and_total 0 10 c1gen (by decide)⟩

/-- C3 (amended): for N > 0 on a state whose ids are all at least 1,
generateBulk(N) appends exactly N placeholder rows, with strictly increasing
ids continuing from the maximal stored id, and strictly increasing positions
continuing from the position of the row with the maximal id (the most
recently inserted row) — not from the maximal stored position. -/
theorem c3_amended_generate_bulk (s : DBState) (now : Int) (N : Nat)
    (hN : 0 < N) (hid1 : ∀ t ∈ s, 1 ≤ t.id) :
    ∃ startID startPos : Int,
      startID = maxId s + 1 ∧
      startPos = (match GetLastTask s with | none => 0 | some t => t.position) + 1 ∧
      GenerateDummyTasks N now s = s ++ dummyList N startID startPos now ∧
      (dummyList N startID startPos now).length = N ∧
      (dummyList N startID startPos now).map (fun t => t.id)
        = (List.range N).map (fun i : Nat => startID + (i : Int)) ∧
      (dummyList N startID startPos now).map (fun t => t.position)
        = (List.range N).map (fun i : Nat => startPos + (i : Int)) ∧
      ((dummyList N startID startPos now).map (fun t => t.id)).Pairwise (· < ·) ∧
      ((dummyList N startID startPos now).map (fun t => t.position)).Pairwise (· < ·) := by
  refine ⟨(match GetLastTask s with | none => 1 | some t => t.id + 1),
      (match GetLastTask s with | none => 1 | some t => t.position + 1),
      ?_, ?_, ?_, dummyList_length N _ _ _, dummyList_map_id N _ _ _,
      dummyList_map_position N _ _ _, ?_, ?_⟩
  · rw [getLastTask_of_pos s hid1]
    unfold nextId
    omega
  · cases GetLastTask s with
    | none => norm_num
    | some t => rfl
  · exact genLoop_spec N _ _ now s (getLastTask_of_pos s hid1).symm
  · rw [dummyList_map_id]
    exact range_map_add_pairwise N _
  · rw [dummyList_map_position]
    exact range_map_add_pairwise N _

/-- Witness for C3 (amended): generating 2 rows on a one-row state. -/
theorem c3_amended_generate_bulk_witness :
    0 < 2 ∧ (∀ t ∈ c2s, 1 ≤ t.id) ∧
    (∃ startID startPos : Int,
      startID = maxId c2s + 1 ∧
      startPos = (match GetLastTask c2s with | none => 0 | some t => t.position) + 1 ∧
      GenerateDummyTasks 2 0 c2s = c2s ++ dummyList 2 startID startPos 0 ∧
      (dummyList 2 startID startPos 0).length = 2 ∧
      (dummyList 2 startID startPos 0).map (fun t => t.id)
        = (List.range 2).map (fun i : Nat => startID + (i : Int)) ∧
      (dummyList 2 startID startPos 0).map (fun t => t.position)
        = (List.range 2).map (fun i : Nat => startPos + (i : Int)) ∧
      ((dummyList 2 startID startPos 0).map (fun t => t.id)).Pairwise (· < ·) ∧
      ((dummyList 2 startID startPos 0).map (fun t => t.position)).Pairwise (· < ·)) :=
  ⟨by decide, by decide, c3_amended_generate_bulk c2s 0 2 (by decide) (by decide)⟩

end TodoApi
